import Mathlib

/-!
Verification of the shootlog EXIF decoders.

This file gives a shallow embedding of the two EXIF/TIFF decoders of the
repository: `internal/exif/parser.go` (namespace `Parser`, producing a
`Summary`) and `internal/exif/extractor.go` (namespace `Extractor`,
producing a `Metadata`).  Bytes are modelled as `Nat` (reads reduce them
mod 256, exactly as Go bytes are always below 256); Go's fixed-width
unsigned arithmetic is modelled with explicit `% 2^32`; fallible Go code
returns `Except String` carrying the error text; a Go runtime panic
(out-of-range slice access) is modelled by the `PRes.oob` outcome.
-/

/-- Outcome of running Go code that may hit a runtime panic
(out-of-range slice index / slice expression): `oob` is the panic,
`ok` the normal result. -/
inductive PRes (α : Type) where
  | oob : PRes α
  | ok : α → PRes α
  deriving DecidableEq

def PRes.bind {α β : Type} : PRes α → (α → PRes β) → PRes β
  | .oob, _ => .oob
  | .ok a, f => f a

instance : Monad PRes where
  pure := PRes.ok
  bind := PRes.bind

deriving instance DecidableEq for Except

/-- The TIFF byte-order signature: `II` (little-endian) or `MM` (big-endian),
modelling Go's `binary.LittleEndian` / `binary.BigEndian`. -/
inductive ByteOrder where
  | le : ByteOrder
  | be : ByteOrder
  deriving DecidableEq

/-- A single byte of the buffer: a missing index reads as 0 and values are
reduced mod 256 (Go bytes are below 256, so on byte buffers this is the
identity). -/
def byteAt (d : List Nat) (i : Nat) : Nat := d.getD i 0 % 256

/-- `binary.ByteOrder.Uint16` on two byte values. -/
def ByteOrder.uint16 : ByteOrder → Nat → Nat → Nat
  | .le, b0, b1 => b0 % 256 + 256 * (b1 % 256)
  | .be, b0, b1 => 256 * (b0 % 256) + b1 % 256

/-- `binary.ByteOrder.Uint32` on four byte values. -/
def ByteOrder.uint32 : ByteOrder → Nat → Nat → Nat → Nat → Nat
  | .le, b0, b1, b2, b3 =>
      b0 % 256 + 256 * (b1 % 256) + 65536 * (b2 % 256) + 16777216 * (b3 % 256)
  | .be, b0, b1, b2, b3 =>
      16777216 * (b0 % 256) + 65536 * (b1 % 256) + 256 * (b2 % 256) + b3 % 256

/-- `order.Uint16(data[i:])`: decode two bytes of `d` starting at `i`. -/
def ByteOrder.uint16At (o : ByteOrder) (d : List Nat) (i : Nat) : Nat :=
  o.uint16 (d.getD i 0) (d.getD (i + 1) 0)

/-- `order.Uint32(data[i:])`: decode four bytes of `d` starting at `i`. -/
def ByteOrder.uint32At (o : ByteOrder) (d : List Nat) (i : Nat) : Nat :=
  o.uint32 (d.getD i 0) (d.getD (i + 1) 0) (d.getD (i + 2) 0) (d.getD (i + 3) 0)

/-- The two bytes `order.PutUint16` would write for value `v`. -/
def ByteOrder.put16 : ByteOrder → Nat → List Nat
  | .le, v => [v % 256, v / 256 % 256]
  | .be, v => [v / 256 % 256, v % 256]

/-- The four bytes `order.PutUint32` would write for value `v`. -/
def ByteOrder.put32 : ByteOrder → Nat → List Nat
  | .le, v => [v % 256, v / 256 % 256, v / 65536 % 256, v / 16777216 % 256]
  | .be, v => [v / 16777216 % 256, v / 65536 % 256, v / 256 % 256, v % 256]

/-- `data[start : start+len]`, normalised to byte values (mod 256). -/
def sliceBytes (d : List Nat) (start len : Nat) : List Nat :=
  ((d.drop start).take len).map (fun b => b % 256)

/-- `strings.Join(parts, ",")`. -/
def joinComma : List String → String
  | [] => ""
  | [s] => s
  | s :: rest => s ++ "," ++ joinComma rest

/-- Go `string(bs)` for a list of byte values (each taken mod 256). -/
def asciiStr (bs : List Nat) : String := String.mk (bs.map (fun b => Char.ofNat (b % 256)))

/-- `strings.TrimRight(s, "\x00")` applied at the byte level: drop all
trailing NUL bytes. -/
def trimNulsRight (bs : List Nat) : List Nat :=
  (bs.reverse.dropWhile (fun b => b % 256 = 0)).reverse

/-- The bytes of an ASCII value up to (excluding) the first NUL byte, the
whole list when no NUL occurs. -/
def takeUntilNul : List Nat → List Nat
  | [] => []
  | b :: rest => if b % 256 = 0 then [] else b :: takeUntilNul rest

/-- Go's `%x` of a single byte value: lowercase hexadecimal without padding. -/
def hexDigitChar (n : Nat) : Char := Char.ofNat (if n < 10 then 48 + n else 87 + n)

/-- Lowercase hexadecimal string of one byte value, as `fmt.Sprintf("%x", b)`
prints a `byte`. -/
def hexByte (b : Nat) : String :=
  if b < 16 then String.mk [hexDigitChar b]
  else String.mk [hexDigitChar (b / 16), hexDigitChar (b % 16)]

/-- `fmt.Sprintf("%d", x)` for an `int32` bit pattern `v` (`0 ≤ v < 2^32`). -/
def int32Repr (v : Nat) : String :=
  if v < 2147483648 then Nat.repr v else "-" ++ Nat.repr (4294967296 - v)

/-- A Go `map[uint16]…` is modelled as an association list with
replace-on-insert semantics; keys built by `tmInsert` are unique. -/
abbrev TagMap (α : Type) := List (Nat × α)

/-- `m[k] = v`: replace the binding of `k` when present, append otherwise. -/
def tmInsert {α : Type} : TagMap α → Nat → α → TagMap α
  | [], k, v => [(k, v)]
  | p :: rest, k, v => if p.1 = k then (k, v) :: rest else p :: tmInsert rest k v

/-- `v, ok := m[k]` as an `Option`. -/
def tmLookup {α : Type} : TagMap α → Nat → Option α
  | [], _ => none
  | p :: rest, k => if p.1 = k then some p.2 else tmLookup rest k

/-- `m[k]` with Go's zero-value-on-miss semantics for string maps. -/
def lookupD (m : TagMap String) (k : Nat) : String := (tmLookup m k).getD ""

/-- `for key, value := range sub { main[key] = value }`: the merge loop both
decoders run to fold the Exif sub-IFD tags over the main-IFD tags. -/
def mergeTagValues {α : Type} (main sub : TagMap α) : TagMap α :=
  sub.foldl (fun acc p => tmInsert acc p.1 p.2) main

namespace Parser

/-! Embedding of `internal/exif/parser.go`.  Every byte access of the Go
code is dominated by an explicit length guard that the embedding
reproduces, so the functions are total and errors are carried in
`Except String`. -/

/-- `ErrInvalidExif = errors.New("invalid exif data")`. -/
def ErrInvalidExif : String := "invalid exif data"

/-- `ErrExifNotFound = errors.New("exif data not found")`. -/
def ErrExifNotFound : String := "exif data not found"

/-- The `Summary` record of parser.go; absent fields are the empty string,
as for Go's zero value. -/
structure Summary where
  Make : String := ""
  Model : String := ""
  LensModel : String := ""
  DateTime : String := ""
  FNumber : String := ""
  ExposureTime : String := ""
  ISOSpeed : String := ""
  FocalLength : String := ""
  ExposureProgram : String := ""
  MeteringMode : String := ""
  WhiteBalance : String := ""
  Software : String := ""
  Orientation : String := ""
  Flash : String := ""
  SceneCaptureType : String := ""
  deriving DecidableEq

/-- `typeSize`: bytes per element of each supported TIFF field type. -/
def typeSize (fieldType : Nat) : Option Nat :=
  if fieldType = 1 ∨ fieldType = 2 then some 1
  else if fieldType = 3 then some 2
  else if fieldType = 4 ∨ fieldType = 5 then some 4
  else none

/-- The per-element loop body of `formatShorts`: one decimal string per
2-byte group, in on-disk order. -/
def shortsParts (o : ByteOrder) : List Nat → List String
  | b0 :: b1 :: rest => Nat.repr (o.uint16 b0 b1) :: shortsParts o rest
  | _ => []

/-- `formatShorts(data, order)`. -/
def formatShorts (data : List Nat) (o : ByteOrder) : String :=
  joinComma (shortsParts o data)

/-- The per-element loop body of `formatLongs`: one decimal string per
4-byte group, in on-disk order. -/
def longsParts (o : ByteOrder) : List Nat → List String
  | b0 :: b1 :: b2 :: b3 :: rest => Nat.repr (o.uint32 b0 b1 b2 b3) :: longsParts o rest
  | _ => []

/-- `formatLongs(data, order)`. -/
def formatLongs (data : List Nat) (o : ByteOrder) : String :=
  joinComma (longsParts o data)

/-- The per-element loop body of `formatRationals`: each 8-byte
numerator/denominator group becomes `"n/d"`, or `"0"` when the
denominator is zero. -/
def rationalsParts (o : ByteOrder) : List Nat → List String
  | b0 :: b1 :: b2 :: b3 :: b4 :: b5 :: b6 :: b7 :: rest =>
      (if o.uint32 b4 b5 b6 b7 = 0 then "0"
       else Nat.repr (o.uint32 b0 b1 b2 b3) ++ "/" ++ Nat.repr (o.uint32 b4 b5 b6 b7)) ::
        rationalsParts o rest
  | _ => []

/-- `formatRationals(data, order)`. -/
def formatRationals (data : List Nat) (o : ByteOrder) : String :=
  joinComma (rationalsParts o data)

/-- `readIFDValue(data, tiffStart, fieldType, count, valueOffset, order)`:
`none` models the `("", false)` outcome (the entry is skipped). -/
def readIFDValue (data : List Nat) (tiffStart fieldType cnt valueOffset : Nat)
    (o : ByteOrder) : Option String :=
  match typeSize fieldType with
  | none => none
  | some sizePerValue =>
    let byteCount := cnt * sizePerValue
    let step : Nat → Option String := fun valueStart =>
      if valueStart + byteCount > data.length then none
      else
        let valueData := sliceBytes data valueStart byteCount
        if fieldType = 2 then some (asciiStr (trimNulsRight valueData))
        else if fieldType = 3 then
          if cnt = 1 then some (Nat.repr (o.uint16At valueData 0))
          else some (formatShorts valueData o)
        else if fieldType = 4 then
          if cnt = 1 then some (Nat.repr (o.uint32At valueData 0))
          else some (formatLongs valueData o)
        else if fieldType = 5 then some (formatRationals valueData o)
        else if fieldType = 1 then
          if cnt = 1 then some (Nat.repr (byteAt valueData 0)) else none
        else none
    if byteCount > 4 then
      if valueOffset + 4 > data.length then none
      else step (tiffStart + o.uint32At data valueOffset)
    else step valueOffset

/-- `parseIFD(data, tiffStart, offset, order)`: the tag map of one
directory together with the Exif sub-IFD offset found in it (0 when none). -/
def parseIFD (data : List Nat) (tiffStart offset : Nat) (o : ByteOrder) :
    Except String (TagMap String × Nat) :=
  if offset + 2 > data.length then .error ErrInvalidExif
  else
    let count := o.uint16At data offset
    let entryStart := offset + 2
    if entryStart + count * 12 > data.length then .error ErrInvalidExif
    else
      .ok ((List.range count).foldl
        (fun acc i =>
          let entryOffset := entryStart + i * 12
          let tag := o.uint16At data entryOffset
          let fieldType := o.uint16At data (entryOffset + 2)
          let cnt := o.uint32At data (entryOffset + 4)
          let valueOffset := entryOffset + 8
          if tag = 0x8769 then
            if fieldType ≠ 4 ∨ cnt ≠ 1 then acc
            else (acc.1, o.uint32At data valueOffset)
          else
            match readIFDValue data tiffStart fieldType cnt valueOffset o with
            | none => acc
            | some value => (tmInsert acc.1 tag value, acc.2))
        ([], 0))

/-- The scanning loop of `findExifSegment`: advance one byte at a time
until an `FF E1` marker pair is found.  `fuel` bounds the recursion; it is
always at least the number of remaining positions, so exhaustion is
unreachable and returns the same error as falling off the end. -/
def findExifSegmentLoop (data : List Nat) : Nat → Nat → Except String Nat
  | 0, _ => .error ErrExifNotFound
  | fuel + 1, i =>
    if i + 4 < data.length then
      if byteAt data i ≠ 0xFF then findExifSegmentLoop data fuel (i + 1)
      else if byteAt data (i + 1) = 0xE1 then
        let length := ByteOrder.be.uint16At data (i + 2)
        if length < 2 ∨ i + 4 + length - 2 > data.length then .error ErrInvalidExif
        else .ok (i + 4)
      else findExifSegmentLoop data fuel (i + 1)
    else .error ErrExifNotFound

/-- `findExifSegment(data)`: the byte offset right after the first
`FF E1 len len` marker header (parser.go scans every position and never
checks the SOI marker). -/
def findExifSegment (data : List Nat) : Except String Nat :=
  findExifSegmentLoop data (data.length + 1) 0

/-- `byteOrder(data[start:])`: the `II`/`MM` signature. -/
def byteOrder (data : List Nat) (start : Nat) : Except String ByteOrder :=
  if data.length < start + 2 then .error ErrInvalidExif
  else if byteAt data start = 0x49 ∧ byteAt data (start + 1) = 0x49 then .ok .le
  else if byteAt data start = 0x4D ∧ byteAt data (start + 1) = 0x4D then .ok .be
  else .error ErrInvalidExif

/-- `firstNonEmpty(values...)`. -/
def firstNonEmpty : List String → String
  | [] => ""
  | s :: rest => if s ≠ "" then s else firstNonEmpty rest

/-- The `Summary{...}` literal at the end of `parseEXIF`, reading each
recognized tag out of the merged map. -/
def summaryOfTags (m : TagMap String) : Summary :=
  { Make := lookupD m 0x010F
    Model := lookupD m 0x0110
    LensModel := lookupD m 0xA434
    DateTime := firstNonEmpty [lookupD m 0x9003, lookupD m 0x0132]
    FNumber := lookupD m 0x829D
    ExposureTime := lookupD m 0x829A
    ISOSpeed := lookupD m 0x8827
    FocalLength := lookupD m 0x920A
    ExposureProgram := lookupD m 0x8822
    MeteringMode := lookupD m 0x9207
    WhiteBalance := lookupD m 0xA403
    Software := lookupD m 0x0131
    Orientation := lookupD m 0x0112
    Flash := lookupD m 0x9209
    SceneCaptureType := lookupD m 0xA406 }

/-- The six signature bytes `"Exif\x00\x00"`. -/
def exifSig : List Nat := [0x45, 0x78, 0x69, 0x66, 0, 0]

/-- `parseEXIF(data)`: the whole parser.go decode pipeline. -/
def parseEXIF (data : List Nat) : Except String Summary :=
  match findExifSegment data with
  | .error e => .error e
  | .ok segmentStart =>
    if data.length < segmentStart + 6 then .error ErrInvalidExif
    else if sliceBytes data segmentStart 6 ≠ exifSig then .error ErrInvalidExif
    else
      let tiffStart := segmentStart + 6
      if data.length < tiffStart + 8 then .error ErrInvalidExif
      else
        match byteOrder data tiffStart with
        | .error e => .error e
        | .ok order =>
          let ifdOffset := order.uint32At data (tiffStart + 4)
          if ifdOffset = 0 then .error ErrInvalidExif
          else
            match parseIFD data tiffStart (tiffStart + ifdOffset) order with
            | .error e => .error e
            | .ok (tagValues, exifOffset) =>
              if exifOffset > 0 then
                match parseIFD data tiffStart (tiffStart + exifOffset) order with
                | .error e => .error e
                | .ok (exifValues, _) =>
                    .ok (summaryOfTags (mergeTagValues tagValues exifValues))
              else .ok (summaryOfTags tagValues)

end Parser

/-- A Go byte slice with its capacity backing: `arr` is the underlying
array from the slice's start (so the capacity is `arr.length`) and `len`
is the slice length.  Go slice expressions may reach between `len` and
the capacity, which is exactly what `extractor.go`'s inline-value buffer
relies on. -/
structure GoSlice where
  arr : List Nat
  len : Nat
  deriving DecidableEq

/-- `s[lo:hi]`: legal when `lo ≤ hi ≤ cap(s)`, a runtime panic otherwise. -/
def GoSlice.sub (s : GoSlice) (lo hi : Nat) : PRes GoSlice :=
  if lo ≤ hi ∧ hi ≤ s.arr.length then .ok ⟨s.arr.drop lo, hi - lo⟩ else .oob

/-- `s[i]`: legal when `i < len(s)`, a runtime panic otherwise. -/
def GoSlice.get (s : GoSlice) (i : Nat) : PRes Nat :=
  if i < s.len then .ok (byteAt s.arr i) else .oob

/-- `order.Uint16(s)`: panics when `len(s) < 2`. -/
def GoSlice.u16 (o : ByteOrder) (s : GoSlice) : PRes Nat :=
  if 2 ≤ s.len then .ok (o.uint16At s.arr 0) else .oob

/-- `order.Uint32(s)`: panics when `len(s) < 4`. -/
def GoSlice.u32 (o : ByteOrder) (s : GoSlice) : PRes Nat :=
  if 4 ≤ s.len then .ok (o.uint32At s.arr 0) else .oob

namespace Extractor

/-! Embedding of `internal/exif/extractor.go`.  The reads of
`findExifBlock`, `parseExif` and the `parseIFD` entry loop are dominated
by explicit guards reproduced here, so they are total; the per-value
readers go through `readData`, whose result is a `GoSlice` accessed with
the panic-faithful operations above, so they live in `PRes`. -/

/-- The `Metadata` record of extractor.go; absent fields are the empty
string, as for Go's zero value. -/
structure Metadata where
  Make : String := ""
  Model : String := ""
  DateTime : String := ""
  LensModel : String := ""
  ExposureTime : String := ""
  FNumber : String := ""
  ISO : String := ""
  FocalLength : String := ""
  deriving DecidableEq

/-- The scanning loop of `findExifBlock`: walk marker segments from
offset 2, skipping by the declared segment length, until the `Exif`
APP1 segment or SOS.  `fuel` bounds the recursion; the offset grows by
at least 4 each step, so with `data.length + 1` fuel exhaustion is
unreachable and returns the same error as falling off the end. -/
def findExifBlockLoop (data : List Nat) : Nat → Nat → Except String (List Nat)
  | 0, _ => .error "exif data not found"
  | fuel + 1, offset =>
    if offset + 4 ≤ data.length then
      if byteAt data offset ≠ 0xFF then .error "invalid jpeg marker"
      else if byteAt data (offset + 1) = 0xDA then .error "exif data not found"
      else
        let segmentLength := ByteOrder.be.uint16At data (offset + 2)
        if segmentLength < 2 ∨ offset + 2 + segmentLength > data.length then
          .error "invalid jpeg segment length"
        else
          let segmentStart := offset + 4
          let segmentEnd := offset + 2 + segmentLength
          if byteAt data (offset + 1) = 0xE1 ∧ 6 ≤ segmentEnd - segmentStart ∧
              sliceBytes data segmentStart 6 = Parser.exifSig then
            .ok (sliceBytes data segmentStart (segmentEnd - segmentStart))
          else findExifBlockLoop data fuel segmentEnd
    else .error "exif data not found"

/-- `findExifBlock(data)`: requires the JPEG SOI marker, then scans the
marker segments for the `Exif` APP1 block and returns its payload. -/
def findExifBlock (data : List Nat) : Except String (List Nat) :=
  if data.length < 4 ∨ byteAt data 0 ≠ 0xFF ∨ byteAt data 1 ≠ 0xD8 then
    .error "not a jpeg image"
  else findExifBlockLoop data (data.length + 1) 2

/-- `parseByteOrder(data)`. -/
def parseByteOrder (data : List Nat) : Except String ByteOrder :=
  if data.length < 2 then .error "tiff header too short"
  else if byteAt data 0 = 0x49 ∧ byteAt data 1 = 0x49 then .ok .le
  else if byteAt data 0 = 0x4D ∧ byteAt data 1 = 0x4D then .ok .be
  else .error "unknown byte order"

/-- The `tiffData` receiver: resolved byte order plus the TIFF payload. -/
structure tiffData where
  order : ByteOrder
  data : List Nat
  deriving DecidableEq

/-- `readData(size, valueOffset)`: values of at most 4 bytes live in the
entry's 4-byte slot, so the slot integer is re-encoded into a fresh
4-capacity buffer trimmed to `size`; larger values are read from the
TIFF payload at `valueOffset` after a bounds check (`none` = Go `nil`).
`size` and `valueOffset` are `uint32` values of the caller. -/
def tiffData.readData (t : tiffData) (size valueOffset : Nat) : Option GoSlice :=
  if size ≤ 4 then some ⟨t.order.put32 valueOffset, size⟩
  else if valueOffset + size > t.data.length then none
  else some ⟨t.data.drop valueOffset, size⟩

/-- `readASCII(count, valueOffset)`: text up to the first NUL byte. -/
def tiffData.readASCII (t : tiffData) (count valueOffset : Nat) : PRes (Option String) :=
  if count = 0 then .ok none
  else
    match t.readData count valueOffset with
    | none => .ok none
    | some data => .ok (some (asciiStr (takeUntilNul (data.arr.take data.len))))

/-- `readRational(count, valueOffset, signed)`: only the first
numerator/denominator pair is read; a zero denominator yields `none`
(the tag is skipped).  The byte size `count*8` is computed in `uint32`
arithmetic and therefore wraps. -/
def tiffData.readRational (t : tiffData) (count valueOffset : Nat) (signed : Bool) :
    PRes (Option String) :=
  if count = 0 then .ok none
  else
    match t.readData (count * 8 % 4294967296) valueOffset with
    | none => .ok none
    | some data =>
      match data.sub 0 4 with
      | .oob => .oob
      | .ok s1 =>
        match GoSlice.u32 t.order s1 with
        | .oob => .oob
        | .ok numerator =>
          match data.sub 4 8 with
          | .oob => .oob
          | .ok s2 =>
            match GoSlice.u32 t.order s2 with
            | .oob => .oob
            | .ok denominator =>
              if signed then
                if denominator = 0 then .ok none
                else .ok (some (int32Repr numerator ++ "/" ++ int32Repr denominator))
              else
                if denominator = 0 then .ok none
                else .ok (some (Nat.repr numerator ++ "/" ++ Nat.repr denominator))

/-- `readShort(count, valueOffset)`: only the first 2-byte element is
decoded, whatever `count` is.  `count*2` wraps in `uint32`. -/
def tiffData.readShort (t : tiffData) (count valueOffset : Nat) : PRes (Option String) :=
  if count = 0 then .ok none
  else
    match t.readData (count * 2 % 4294967296) valueOffset with
    | none => .ok none
    | some data =>
      match data.sub 0 2 with
      | .oob => .oob
      | .ok s =>
        match GoSlice.u16 t.order s with
        | .oob => .oob
        | .ok value => .ok (some (Nat.repr value))

/-- `readLong(count, valueOffset)`: only the first 4-byte element is
decoded.  `count*4` wraps in `uint32`. -/
def tiffData.readLong (t : tiffData) (count valueOffset : Nat) : PRes (Option String) :=
  if count = 0 then .ok none
  else
    match t.readData (count * 4 % 4294967296) valueOffset with
    | none => .ok none
    | some data =>
      match data.sub 0 4 with
      | .oob => .oob
      | .ok s =>
        match GoSlice.u32 t.order s with
        | .oob => .oob
        | .ok value => .ok (some (Nat.repr value))

/-- `readSignedLong(count, valueOffset)`: the first element as `int32`. -/
def tiffData.readSignedLong (t : tiffData) (count valueOffset : Nat) : PRes (Option String) :=
  if count = 0 then .ok none
  else
    match t.readData (count * 4 % 4294967296) valueOffset with
    | none => .ok none
    | some data =>
      match data.sub 0 4 with
      | .oob => .oob
      | .ok s =>
        match GoSlice.u32 t.order s with
        | .oob => .oob
        | .ok value => .ok (some (int32Repr value))

/-- `readByte(count, valueOffset)`: lowercase hex of the first byte. -/
def tiffData.readByte (t : tiffData) (count valueOffset : Nat) : PRes (Option String) :=
  if count = 0 then .ok none
  else
    match t.readData count valueOffset with
    | none => .ok none
    | some data =>
      match data.get 0 with
      | .oob => .oob
      | .ok b => .ok (some (hexByte b))

/-- `readValue(tagType, count, valueOffset)`: dispatch on the TIFF field
type; unsupported types yield `none` (the tag is dropped). -/
def tiffData.readValue (t : tiffData) (tagType count valueOffset : Nat) :
    PRes (Option String) :=
  if tagType = 2 then t.readASCII count valueOffset
  else if tagType = 5 then t.readRational count valueOffset false
  else if tagType = 10 then t.readRational count valueOffset true
  else if tagType = 3 then t.readShort count valueOffset
  else if tagType = 4 then t.readLong count valueOffset
  else if tagType = 1 ∨ tagType = 7 then t.readByte count valueOffset
  else if tagType = 9 then t.readSignedLong count valueOffset
  else .ok none

/-- `parseIFD(offset)` of extractor.go: `offset` is a `uint32`; note that
Go computes the entry-table start as `int(offset + 2)`, a `uint32`
addition that wraps, while the first bounds check uses `int(offset) + 2`,
which does not. -/
def tiffData.parseIFD (t : tiffData) (offset0 : Nat) :
    PRes (Except String (TagMap (Nat × String))) :=
  let offset := offset0 % 4294967296
  if offset = 0 then .ok (.ok [])
  else if offset + 2 > t.data.length then .ok (.error "ifd offset out of range")
  else
    let entryCount := t.order.uint16At t.data offset
    let entriesStart := (offset + 2) % 4294967296
    if entriesStart + entryCount * 12 > t.data.length then
      .ok (.error "ifd entries out of range")
    else
      match (List.range entryCount).foldlM
        (fun values i =>
          let entryOffset := entriesStart + i * 12
          let tag := t.order.uint16At t.data entryOffset
          let tagType := t.order.uint16At t.data (entryOffset + 2)
          let count := t.order.uint32At t.data (entryOffset + 4)
          let valueOffset := t.order.uint32At t.data (entryOffset + 8)
          (t.readValue tagType count valueOffset).bind fun value =>
            match value with
            | none => PRes.ok values
            | some v => PRes.ok (tmInsert values tag (tagType, v)))
        ([] : TagMap (Nat × String)) with
      | .oob => .oob
      | .ok values => .ok (.ok values)

/-- Character predicate of Go's `unicode.IsSpace` restricted to ASCII,
as `fmt`'s scanner skips it before a `%d` verb. -/
def isGoSpace (c : Char) : Bool :=
  c.toNat = 32 || c.toNat = 9 || c.toNat = 10 || c.toNat = 13 || c.toNat = 11 || c.toNat = 12

/-- Is `c` an ASCII decimal digit. -/
def isDigitChar (c : Char) : Bool := 48 ≤ c.toNat && c.toNat ≤ 57

/-- Numeric value of an ASCII digit. -/
def digitVal (c : Char) : Nat := c.toNat - 48

/-- Decimal value of a digit list (most significant first). -/
def decDigitsVal : List Char → Nat → Nat
  | [], acc => acc
  | c :: rest, acc => decDigitsVal rest (10 * acc + digitVal c)

/-- `parseUint32(value)`, i.e. `fmt.Sscanf(value, "%d", &parsed)` into a
`uint32`: skip leading spaces, read a run of decimal digits (further text
is not consumed and not an error), fail when there is no digit or the
value exceeds the `uint32` range. -/
def parseUint32 (s : String) : Option Nat :=
  let digits := (s.data.dropWhile isGoSpace).takeWhile isDigitChar
  if digits = [] then none
  else
    let v := decDigitsVal digits 0
    if v < 4294967296 then some v else none

end Extractor

namespace Extractor

/-- Go `time`'s `getnum`: one or two digits; with `fixed` set exactly two
digits are required. -/
def getnum (fixed : Bool) : List Char → Option (Nat × List Char)
  | [] => none
  | [c] => if isDigitChar c then (if fixed then none else some (digitVal c, [])) else none
  | c1 :: c2 :: rest =>
    if isDigitChar c1 then
      if isDigitChar c2 then some (10 * digitVal c1 + digitVal c2, rest)
      else if fixed then none else some (digitVal c1, c2 :: rest)
    else none

/-- Go `time`'s four-digit year field. -/
def getnum4 : List Char → Option (Nat × List Char)
  | c1 :: c2 :: c3 :: c4 :: rest =>
    if isDigitChar c1 && isDigitChar c2 && isDigitChar c3 && isDigitChar c4 then
      some (1000 * digitVal c1 + 100 * digitVal c2 + 10 * digitVal c3 + digitVal c4, rest)
    else none
  | _ => none

/-- Consume one literal character (given by its code point). -/
def expectCode (n : Nat) : List Char → Option (List Char)
  | [] => none
  | x :: rest => if x.toNat = n then some rest else none

/-- Gregorian leap year, as Go `time.isLeap`. -/
def isLeapYear (y : Nat) : Bool := y % 4 = 0 && (y % 100 ≠ 0 || y % 400 = 0)

/-- Days in a month, as Go `time.daysIn`. -/
def daysIn (month year : Nat) : Nat :=
  if month = 2 then (if isLeapYear year then 29 else 28)
  else if month = 4 ∨ month = 6 ∨ month = 9 ∨ month = 11 then 30 else 31

/-- Zero-padded two-digit decimal. -/
def pad2 (n : Nat) : String := if n < 10 then "0" ++ Nat.repr n else Nat.repr n

/-- Zero-padded four-digit decimal. -/
def pad4 (n : Nat) : String :=
  if n < 10 then "000" ++ Nat.repr n
  else if n < 100 then "00" ++ Nat.repr n
  else if n < 1000 then "0" ++ Nat.repr n
  else Nat.repr n

/-- Model of `time.Parse("2006:01:02 15:04:05", rawDate)` followed by
`Format(time.RFC3339)` as in `parseExif`: a 4-digit year, 2-digit
zero-padded month/day/minute/second, a 1-or-2-digit hour, the literal
separators of the layout, no trailing text, and the range checks Go's
parser applies (month 1–12, day against the month length with leap
years, hour below 24, minute/second below 60).  A successful parse is a
UTC time, which RFC 3339 renders with a `Z` suffix. -/
def reformatDateTime (s : String) : Option String :=
  (getnum4 s.data).bind fun py =>
  (expectCode 58 py.2).bind fun r1 =>
  (getnum true r1).bind fun pmo =>
  (expectCode 58 pmo.2).bind fun r2 =>
  (getnum true r2).bind fun pd =>
  (expectCode 32 pd.2).bind fun r3 =>
  (getnum false r3).bind fun ph =>
  (expectCode 58 ph.2).bind fun r4 =>
  (getnum true r4).bind fun pmi =>
  (expectCode 58 pmi.2).bind fun r5 =>
  (getnum true r5).bind fun ps =>
  if ps.2 = [] ∧ 1 ≤ pmo.1 ∧ pmo.1 ≤ 12 ∧ 1 ≤ pd.1 ∧ pd.1 ≤ daysIn pmo.1 py.1 ∧
      ph.1 ≤ 23 ∧ pmi.1 ≤ 59 ∧ ps.1 ≤ 59 then
    some (pad4 py.1 ++ "-" ++ pad2 pmo.1 ++ "-" ++ pad2 pd.1 ++ "T" ++
      pad2 ph.1 ++ ":" ++ pad2 pmi.1 ++ ":" ++ pad2 ps.1 ++ "Z")
  else none

/-- `tags[tag].value`: a map miss reads the zero `tagValue`, whose
string field is empty. -/
def tagString (tags : TagMap (Nat × String)) (k : Nat) : String :=
  match tmLookup tags k with
  | some p => p.2
  | none => ""

/-- The `Metadata{...}` literal and date reformatting at the end of
`parseExif` (extractor.go lines 122–138): each field reads its tag from
the merged map; the date/time field comes from tag 0x0132 only, passed
through `time.Parse`/RFC 3339 when it matches the EXIF layout and kept
verbatim otherwise. -/
def buildMetadata (tags : TagMap (Nat × String)) : Metadata :=
  let base : Metadata :=
    { Make := tagString tags 0x010F
      Model := tagString tags 0x0110
      LensModel := tagString tags 0xA434
      ExposureTime := tagString tags 0x829A
      FNumber := tagString tags 0x829D
      ISO := tagString tags 0x8827
      FocalLength := tagString tags 0x920A }
  let rawDate : String := tagString tags 0x0132
  if rawDate = "" then base
  else
    match reformatDateTime rawDate with
    | some formatted => { base with DateTime := formatted }
    | none => { base with DateTime := rawDate }

/-- `parseExif(data)`: the whole extractor.go decode pipeline.  A failed
sub-IFD parse (error or unparsable pointer) is silently ignored and the
main-IFD tags are used alone. -/
def parseExif (data : List Nat) : PRes (Except String Metadata) :=
  match findExifBlock data with
  | .error e => .ok (.error e)
  | .ok exifBlock =>
    if exifBlock.length < 6 + 8 then .ok (.error "exif block too short")
    else
      let tiffBytes := exifBlock.drop 6
      match parseByteOrder tiffBytes with
      | .error e => .ok (.error e)
      | .ok order =>
        if order.uint16At tiffBytes 2 ≠ 42 then .ok (.error "invalid tiff header")
        else
          let t : tiffData := ⟨order, tiffBytes⟩
          let ifdOffset := order.uint32At tiffBytes 4
          match t.parseIFD ifdOffset with
          | .oob => .oob
          | .ok (.error e) => .ok (.error e)
          | .ok (.ok tags) =>
            match tmLookup tags 0x8769 with
            | none => .ok (.ok (buildMetadata tags))
            | some pointer =>
              match parseUint32 pointer.2 with
              | none => .ok (.ok (buildMetadata tags))
              | some exifOffset =>
                match t.parseIFD exifOffset with
                | .oob => .oob
                | .ok (.error _) => .ok (.ok (buildMetadata tags))
                | .ok (.ok ifdTags) =>
                    .ok (.ok (buildMetadata (mergeTagValues tags ifdTags)))

end Extractor

/-! ### Support lemmas -/

theorem put32_length (o : ByteOrder) (v : Nat) : (o.put32 v).length = 4 := by
  cases o <;> simp [ByteOrder.put32]

theorem put16_length (o : ByteOrder) (v : Nat) : (o.put16 v).length = 2 := by
  cases o <;> simp [ByteOrder.put16]

/-- Decoding the four bytes `PutUint32` wrote recovers the value mod 2^32. -/
theorem uint32At_put32_append (o : ByteOrder) (v : Nat) (rest : List Nat) :
    o.uint32At (o.put32 v ++ rest) 0 = v % 4294967296 := by
  cases o <;>
    simp [ByteOrder.put32, ByteOrder.uint32At, ByteOrder.uint32, List.getD_cons_zero,
      List.getD_cons_succ, List.cons_append] <;> omega

/-- Re-encoding a decoded 4-byte group with the same order is the identity
on byte values. -/
theorem put32_uint32_bytes (o : ByteOrder) (b0 b1 b2 b3 : Nat)
    (h0 : b0 < 256) (h1 : b1 < 256) (h2 : b2 < 256) (h3 : b3 < 256) :
    o.put32 (o.uint32 b0 b1 b2 b3) = [b0, b1, b2, b3] := by
  cases o <;> simp [ByteOrder.put32, ByteOrder.uint32, List.cons.injEq] <;>
    refine ⟨?_, ?_, ?_, ?_⟩ <;> omega

theorem tmLookup_tmInsert_self {α : Type} (m : TagMap α) (k : Nat) (v : α) :
    tmLookup (tmInsert m k v) k = some v := by
  induction m with
  | nil => simp [tmInsert, tmLookup]
  | cons p rest ih =>
    by_cases h : p.1 = k
    · simp [tmInsert, h, tmLookup]
    · simp [tmInsert, h, tmLookup, ih]

theorem tmLookup_tmInsert_ne {α : Type} (m : TagMap α) (k q : Nat) (v : α) (h : k ≠ q) :
    tmLookup (tmInsert m k v) q = tmLookup m q := by
  induction m with
  | nil => simp [tmInsert, tmLookup, h]
  | cons p rest ih =>
    by_cases hp : p.1 = k
    · simp [tmInsert, hp, tmLookup, h]
    · simp [tmInsert, hp, tmLookup, ih]

theorem tmLookup_mergeTagValues_of_notMem {α : Type} (sub : TagMap α) (main : TagMap α)
    (k : Nat) (h : ∀ p ∈ sub, p.1 ≠ k) :
    tmLookup (mergeTagValues main sub) k = tmLookup main k := by
  induction sub generalizing main with
  | nil => rfl
  | cons p rest ih =>
    have step : mergeTagValues main (p :: rest) = mergeTagValues (tmInsert main p.1 p.2) rest := rfl
    rw [step, ih (tmInsert main p.1 p.2) (fun q hq => h q (List.mem_cons_of_mem p hq))]
    exact tmLookup_tmInsert_ne main p.1 k p.2 (h p (List.mem_cons_self p rest))

theorem tmLookup_mergeTagValues_of_lookup {α : Type} (sub : TagMap α) (main : TagMap α)
    (k : Nat) (v : α) (hnd : (sub.map Prod.fst).Nodup) (hs : tmLookup sub k = some v) :
    tmLookup (mergeTagValues main sub) k = some v := by
  induction sub generalizing main with
  | nil => exact absurd hs (by simp [tmLookup])
  | cons p rest ih =>
    have step : mergeTagValues main (p :: rest) = mergeTagValues (tmInsert main p.1 p.2) rest := rfl
    rw [step]
    have hnd' : p.1 ∉ rest.map Prod.fst ∧ (rest.map Prod.fst).Nodup := by
      simpa [List.nodup_cons] using hnd
    by_cases h : p.1 = k
    · have hv : v = p.2 := by
        have := hs
        simp [tmLookup, h] at this
        exact this.symm
      subst hv
      rw [tmLookup_mergeTagValues_of_notMem rest (tmInsert main p.1 p.2) k
        (fun q hq hqk => hnd'.1 (by
          rw [h, ← hqk]
          exact List.mem_map_of_mem Prod.fst hq))]
      rw [← h]
      exact tmLookup_tmInsert_self main p.1 p.2
    · have hs' : tmLookup rest k = some v := by
        have := hs
        simpa [tmLookup, h] using this
      exact ih (tmInsert main p.1 p.2) hnd'.2 hs'

/-! ### Claim C6 -/

/-- Claim C6: for every tag number defined with a value in both the main
IFD and the Exif sub-IFD, the sub-IFD's value is the one present in the
merged mapping — `mergeTagValues` is the merge loop both `parseEXIF` and
`parseExif` run — and hence the one the output record reads: the Make
field of either output record equals the sub-IFD's value for tag 0x010F.
(The tag maps produced by `parseIFD` have pairwise distinct keys, which
is the `Nodup` hypothesis.) -/
theorem C6_subIFD_value_wins :
    (∀ (α : Type) (main sub : TagMap α) (k : Nat) (v : α),
      (sub.map Prod.fst).Nodup → tmLookup sub k = some v →
        tmLookup (mergeTagValues main sub) k = some v) ∧
    (∀ (main sub : TagMap String) (v : String),
      (sub.map Prod.fst).Nodup → tmLookup sub 0x010F = some v →
        (Parser.summaryOfTags (mergeTagValues main sub)).Make = v) ∧
    (∀ (main sub : TagMap (Nat × String)) (p : Nat × String),
      (sub.map Prod.fst).Nodup → tmLookup sub 0x010F = some p →
        (Extractor.buildMetadata (mergeTagValues main sub)).Make = p.2) := by
  refine ⟨fun α main sub k v hnd hs =>
    tmLookup_mergeTagValues_of_lookup sub main k v hnd hs, ?_, ?_⟩
  · intro main sub v hnd hs
    have hm := tmLookup_mergeTagValues_of_lookup sub main 0x010F v hnd hs
    simp [Parser.summaryOfTags, lookupD, hm]
  · intro main sub p hnd hs
    have hm := tmLookup_mergeTagValues_of_lookup sub main 0x010F p hnd hs
    have hmake : ∀ tags : TagMap (Nat × String),
        (Extractor.buildMetadata tags).Make = Extractor.tagString tags 0x010F := by
      intro tags
      simp only [Extractor.buildMetadata]
      split
      · rfl
      · split <;> rfl
    rw [hmake (mergeTagValues main sub)]
    simp [Extractor.tagString, hm]

/-- Witness for C6 at concrete maps. -/
theorem C6_witness :
    tmLookup (mergeTagValues [(271, "main")] [(271, "sub")]) 271 = some "sub" ∧
    (Parser.summaryOfTags (mergeTagValues [(271, "main")] [(271, "sub")])).Make = "sub" := by
  constructor
  · exact C6_subIFD_value_wins.1 String [(271, "main")] [(271, "sub")] 271 "sub"
      (by decide) (by decide)
  · exact C6_subIFD_value_wins.2.1 [(271, "main")] [(271, "sub")] "sub" (by decide) (by decide)

/-! ### Claim C10 -/

/-- Claim C10: in extractor.go's `readData`, for every request of at most
4 bytes, re-encoding the already-decoded 32-bit value-slot integer with
the same byte order (`PutUint32` after the `Uint32` decode of the slot in
`parseIFD`) reproduces exactly the four on-disk slot bytes, so the
returned slice is the 4-byte slot trimmed to `size`: inline reads are a
byte-level round-trip through the 32-bit decode for both byte orders. -/
theorem C10_inline_readData_roundtrip (o : ByteOrder) (d : List Nat)
    (b0 b1 b2 b3 : Nat) (h0 : b0 < 256) (h1 : b1 < 256) (h2 : b2 < 256) (h3 : b3 < 256)
    (size : Nat) (hs : size ≤ 4) :
    Extractor.tiffData.readData ⟨o, d⟩ size (o.uint32 b0 b1 b2 b3) =
      some ⟨[b0, b1, b2, b3], size⟩ := by
  unfold Extractor.tiffData.readData
  rw [if_pos hs]
  rw [show (Extractor.tiffData.mk o d).order = o from rfl]
  rw [put32_uint32_bytes o b0 b1 b2 b3 h0 h1 h2 h3]

/-- Witness for C10 at a concrete slot. -/
theorem C10_witness :
    Extractor.tiffData.readData ⟨ByteOrder.le, []⟩ 3 (ByteOrder.le.uint32 1 2 3 4) =
      some ⟨[1, 2, 3, 4], 3⟩ :=
  C10_inline_readData_roundtrip ByteOrder.le [] 1 2 3 4
    (by decide) (by decide) (by decide) (by decide) 3 (by decide)

/-! ### Claim C1 -/

/-- A complete JPEG whose single IFD entry is an unsigned rational with
declared count 0x20000000: `count * 8` overflows `uint32` to 0, so
`readData` returns a zero-length slice over a 4-byte buffer and
`readRational`'s `data[4:8]` slice expression exceeds the capacity. -/
def rationalOverflowJPEG : List Nat :=
  [0xFF, 0xD8, 0xFF, 0xE1, 0, 30, 0x45, 0x78, 0x69, 0x66, 0, 0,
   0x49, 0x49, 42, 0, 8, 0, 0, 0, 1, 0,
   0x9A, 0x82, 5, 0, 0, 0, 0, 0x20, 0, 0, 0, 0]

/-- Claim C1: the claim states that both decoders perform only in-bounds
accesses and never panic.  The code violates this: on
`rationalOverflowJPEG` the extractor's decode reaches the out-of-range
slice access `data[4:8]` on a buffer of capacity 4 (a Go runtime panic,
`PRes.oob`), because `readRational` computes the byte size `count*8` in
`uint32` arithmetic and a count of 0x20000000 wraps it to 0.  The spec's
bounds-check invariant is clearly the intent, so this is a code bug. -/
theorem C1_extractor_rational_count_overflow_panics :
    Extractor.parseExif rationalOverflowJPEG = PRes.oob := by decide

/-! ### Claim C2 -/

/-- An APP1/Exif segment with no JPEG SOI prefix: the buffer starts with
FF E1, not FF D8, and carries a well-formed TIFF payload with one ASCII
Make entry. -/
def noSOIExif : List Nat :=
  [0xFF, 0xE1, 0, 43, 0x45, 0x78, 0x69, 0x66, 0, 0,
   0x49, 0x49, 42, 0, 8, 0, 0, 0, 1, 0,
   0x0F, 0x01, 2, 0, 9, 0, 0, 0, 26, 0, 0, 0, 0, 0, 0, 0,
   84, 101, 115, 116, 77, 97, 107, 101, 0]

/-- Claim C2, counterexample: `noSOIExif` does not begin with the JPEG
Start-Of-Image marker FF D8, yet parser.go's decode succeeds and returns
a metadata record (Make = "TestMake") instead of failing with the
NotAnImage error — `findExifSegment` never looks at the SOI marker. -/
theorem C2_counterexample_parseEXIF_accepts_missing_SOI :
    Parser.parseEXIF noSOIExif = Except.ok { Make := "TestMake" } ∧
    byteAt noSOIExif 1 ≠ 0xD8 := by decide

/-- Claim C2 (amended): extractor.go's decoder rejects every byte buffer
that does not begin with FF D8 with the "not a jpeg image" error and no
metadata record; parser.go's `parseEXIF` performs no SOI check and can
succeed on such buffers. -/
theorem C2_amended_extractor_rejects_non_jpeg (data : List Nat)
    (h : ¬(2 ≤ data.length ∧ byteAt data 0 = 0xFF ∧ byteAt data 1 = 0xD8)) :
    Extractor.parseExif data = PRes.ok (.error "not a jpeg image") := by
  have hblock : Extractor.findExifBlock data = .error "not a jpeg image" := by
    unfold Extractor.findExifBlock
    rw [if_pos]
    rcases Nat.lt_or_ge data.length 4 with hl | hl
    · exact Or.inl hl
    · have h2 : 2 ≤ data.length := by omega
      by_cases hb0 : byteAt data 0 = 0xFF
      · by_cases hb1 : byteAt data 1 = 0xD8
        · exact absurd ⟨h2, hb0, hb1⟩ h
        · exact Or.inr (Or.inr hb1)
      · exact Or.inr (Or.inl hb0)
  simp [Extractor.parseExif, hblock]

/-- Witness for the amended C2 at a concrete non-JPEG buffer. -/
theorem C2_witness :
    Extractor.parseExif [0, 1, 2, 3, 4] = PRes.ok (.error "not a jpeg image") :=
  C2_amended_extractor_rejects_non_jpeg [0, 1, 2, 3, 4] (by decide)

/-! ### Claim C3 -/

/-- A JPEG whose TIFF header carries the magic value 43 instead of 42
after the `II` byte-order signature, followed by a well-formed IFD with
one ASCII Make entry. -/
def badMagicJPEG : List Nat :=
  [0xFF, 0xD8, 0xFF, 0xE1, 0, 43, 0x45, 0x78, 0x69, 0x66, 0, 0,
   0x49, 0x49, 43, 0, 8, 0, 0, 0, 1, 0,
   0x0F, 0x01, 2, 0, 9, 0, 0, 0, 26, 0, 0, 0, 0, 0, 0, 0,
   84, 101, 115, 116, 77, 97, 107, 101, 0]

/-- Claim C3, counterexample: in `badMagicJPEG` the two bytes after the
byte-order signature decode (in the resolved little-endian order) to 43,
not the TIFF magic 0x002A, yet parser.go's decode succeeds with a
Summary (Make = "TestMake"): `parseEXIF` never reads the magic bytes. -/
theorem C3_counterexample_parseEXIF_ignores_tiff_magic :
    Parser.parseEXIF badMagicJPEG = Except.ok { Make := "TestMake" } ∧
    ByteOrder.le.uint16At badMagicJPEG 14 ≠ 42 := by decide

/-- Claim C3 (amended): extractor.go's decoder verifies the 2-byte value
after the byte-order signature against 0x002A in the resolved order and
fails the whole decode with "invalid tiff header" whenever it differs;
parser.go's `parseEXIF` performs no such verification. -/
theorem C3_amended_extractor_rejects_bad_magic (data b : List Nat) (o : ByteOrder)
    (h1 : Extractor.findExifBlock data = .ok b)
    (h2 : 14 ≤ b.length)
    (h3 : Extractor.parseByteOrder (b.drop 6) = .ok o)
    (h4 : o.uint16At (b.drop 6) 2 ≠ 42) :
    Extractor.parseExif data = PRes.ok (.error "invalid tiff header") := by
  unfold Extractor.parseExif
  rw [h1]
  simp only [h3]
  rw [if_neg (by omega)]
  rw [if_pos h4]

/-- Witness for the amended C3 at a concrete bad-magic JPEG. -/
theorem C3_witness :
    Extractor.parseExif
      ([0xFF, 0xD8, 0xFF, 0xE1, 0, 16, 0x45, 0x78, 0x69, 0x66, 0, 0,
        0x49, 0x49, 43, 0, 8, 0, 0, 0]) = PRes.ok (.error "invalid tiff header") :=
  C3_amended_extractor_rejects_bad_magic
    [0xFF, 0xD8, 0xFF, 0xE1, 0, 16, 0x45, 0x78, 0x69, 0x66, 0, 0,
      0x49, 0x49, 43, 0, 8, 0, 0, 0]
    [0x45, 0x78, 0x69, 0x66, 0, 0, 0x49, 0x49, 43, 0, 8, 0, 0, 0]
    ByteOrder.le (by decide) (by decide) (by decide) (by decide)

/-! ### Claim C4 -/

/-- Decoding the four little-endian bytes of `v` yields `v` mod 2^32. -/
theorem uint32_le_bytes (a : Nat) :
    ByteOrder.le.uint32 (a % 256) (a / 256 % 256) (a / 65536 % 256) (a / 16777216 % 256) =
      a % 4294967296 := by
  simp only [ByteOrder.uint32]
  omega

/-- Decoding the four big-endian bytes of `v` yields `v` mod 2^32. -/
theorem uint32_be_bytes (a : Nat) :
    ByteOrder.be.uint32 (a / 16777216 % 256) (a / 65536 % 256) (a / 256 % 256) (a % 256) =
      a % 4294967296 := by
  simp only [ByteOrder.uint32]
  omega

/-- On-disk encoding of a list of 8-byte rational pairs in order `o`. -/
def encRationals (o : ByteOrder) : List (Nat × Nat) → List Nat
  | [] => []
  | p :: ps => o.put32 p.1 ++ (o.put32 p.2 ++ encRationals o ps)

theorem rationalsParts_enc (o : ByteOrder) (a b : Nat) (rest : List Nat) :
    Parser.rationalsParts o (o.put32 a ++ (o.put32 b ++ rest)) =
      (if b % 4294967296 = 0 then "0"
       else Nat.repr (a % 4294967296) ++ "/" ++ Nat.repr (b % 4294967296)) ::
        Parser.rationalsParts o rest := by
  cases o
  · simp only [ByteOrder.put32, List.cons_append, List.nil_append, Parser.rationalsParts,
      uint32_le_bytes]
    rfl
  · simp only [ByteOrder.put32, List.cons_append, List.nil_append, Parser.rationalsParts,
      uint32_be_bytes]
    rfl

/-- parser.go's `formatRationals` on the encoding of any pair list:
every zero-denominator pair is rendered as `"0"`, every other pair as
`"n/d"`, comma-joined in on-disk order — never a literal `"n/0"`. -/
theorem formatRationals_enc (o : ByteOrder) (ps : List (Nat × Nat)) :
    Parser.formatRationals (encRationals o ps) o =
      joinComma (ps.map fun p =>
        if p.2 % 4294967296 = 0 then "0"
        else Nat.repr (p.1 % 4294967296) ++ "/" ++ Nat.repr (p.2 % 4294967296)) := by
  unfold Parser.formatRationals
  congr 1
  induction ps with
  | nil => rfl
  | cons p ps ih =>
    show Parser.rationalsParts o (o.put32 p.1 ++ (o.put32 p.2 ++ encRationals o ps)) = _
    rw [rationalsParts_enc, ih]
    rfl

/-- Claim C4, counterexample: a rational directory entry with two on-disk
pairs, (1,0) — a zero denominator — then (3,4).  The claim requires the
formatted value "0,3/4" (the zero-denominator position as "0", the other
normally).  parser.go sizes rationals at 4 bytes per value, so it reads
only count·4 = 8 bytes (one pair) and formats `some "0"`, dropping the
second position entirely. -/
theorem C4_counterexample_multi_rational_truncated :
    Parser.readIFDValue
      [8, 0, 0, 0, 0, 0, 0, 0, 1, 0, 0, 0, 0, 0, 0, 0, 3, 0, 0, 0, 4, 0, 0, 0]
      0 5 2 0 ByteOrder.le = some "0" ∧
    some "0" ≠ some "0,3/4" := by decide

/-- Claim C4 (amended): no decoder ever formats a literal `"n/0"`.
parser.go renders each decoded zero-denominator pair as `"0"` and each
nonzero pair as `"n/d"` in on-disk order, but its per-value size for
rationals is 4 bytes, so it decodes only half the declared pairs; in
particular a single-value rational entry decodes zero pairs and yields
the empty string (not an absent field).  extractor.go reads only the
first pair and yields an absent field (skip) whenever that pair's
denominator is zero, for single- and multi-value entries alike. -/
theorem C4_amended_zero_denominator_policies :
    (∀ (o : ByteOrder) (ps : List (Nat × Nat)),
      Parser.formatRationals (encRationals o ps) o =
        joinComma (ps.map fun p =>
          if p.2 % 4294967296 = 0 then "0"
          else Nat.repr (p.1 % 4294967296) ++ "/" ++ Nat.repr (p.2 % 4294967296))) ∧
    (∀ (o : ByteOrder) (ts b0 b1 b2 b3 : Nat) (rest : List Nat),
      Parser.readIFDValue (b0 :: b1 :: b2 :: b3 :: rest) ts 5 1 0 o = some "") ∧
    (∀ (o : ByteOrder) (n : Nat),
      Extractor.tiffData.readRational ⟨o, o.put32 n ++ [0, 0, 0, 0]⟩ 1 0 false =
        PRes.ok none) := by
  refine ⟨formatRationals_enc, ?_, ?_⟩
  · intro o ts b0 b1 b2 b3 rest
    simp [Parser.readIFDValue, Parser.typeSize, sliceBytes, Parser.formatRationals,
      Parser.rationalsParts, joinComma]
  · intro o n
    cases o <;>
      simp [Extractor.tiffData.readRational, Extractor.tiffData.readData, ByteOrder.put32,
        GoSlice.sub, GoSlice.u32, ByteOrder.uint32At, ByteOrder.uint32]

/-! ### Claim C7 -/

/-- Decoding the two little-endian bytes of `v` yields `v` mod 2^16. -/
theorem uint16_le_bytes (a : Nat) :
    ByteOrder.le.uint16 (a % 256) (a / 256 % 256) = a % 65536 := by
  simp only [ByteOrder.uint16]
  omega

/-- Decoding the two big-endian bytes of `v` yields `v` mod 2^16. -/
theorem uint16_be_bytes (a : Nat) :
    ByteOrder.be.uint16 (a / 256 % 256) (a % 256) = a % 65536 := by
  simp only [ByteOrder.uint16]
  omega

/-- On-disk encoding of a list of 2-byte unsigned shorts in order `o`. -/
def encShorts (o : ByteOrder) : List Nat → List Nat
  | [] => []
  | v :: vs => o.put16 v ++ encShorts o vs

/-- On-disk encoding of a list of 4-byte unsigned longs in order `o`. -/
def encLongs (o : ByteOrder) : List Nat → List Nat
  | [] => []
  | v :: vs => o.put32 v ++ encLongs o vs

theorem shortsParts_enc (o : ByteOrder) (v : Nat) (rest : List Nat) :
    Parser.shortsParts o (o.put16 v ++ rest) =
      Nat.repr (v % 65536) :: Parser.shortsParts o rest := by
  cases o
  · simp only [ByteOrder.put16, List.cons_append, List.nil_append, Parser.shortsParts,
      uint16_le_bytes]
    rfl
  · simp only [ByteOrder.put16, List.cons_append, List.nil_append, Parser.shortsParts,
      uint16_be_bytes]
    rfl

theorem longsParts_enc (o : ByteOrder) (v : Nat) (rest : List Nat) :
    Parser.longsParts o (o.put32 v ++ rest) =
      Nat.repr (v % 4294967296) :: Parser.longsParts o rest := by
  cases o
  · simp only [ByteOrder.put32, List.cons_append, List.nil_append, Parser.longsParts,
      uint32_le_bytes]
    rfl
  · simp only [ByteOrder.put32, List.cons_append, List.nil_append, Parser.longsParts,
      uint32_be_bytes]
    rfl

/-- parser.go's `formatShorts` on the encoding of any value list:
comma-joined decimal strings, one per element, in on-disk order. -/
theorem formatShorts_enc (o : ByteOrder) (vs : List Nat) :
    Parser.formatShorts (encShorts o vs) o =
      joinComma (vs.map fun v => Nat.repr (v % 65536)) := by
  unfold Parser.formatShorts
  congr 1
  induction vs with
  | nil => rfl
  | cons v vs ih =>
    show Parser.shortsParts o (o.put16 v ++ encShorts o vs) = _
    rw [shortsParts_enc, ih]
    rfl

/-- parser.go's `formatLongs` on the encoding of any value list. -/
theorem formatLongs_enc (o : ByteOrder) (vs : List Nat) :
    Parser.formatLongs (encLongs o vs) o =
      joinComma (vs.map fun v => Nat.repr (v % 4294967296)) := by
  unfold Parser.formatLongs
  congr 1
  induction vs with
  | nil => rfl
  | cons v vs ih =>
    show Parser.longsParts o (o.put32 v ++ encLongs o vs) = _
    rw [longsParts_enc, ih]
    rfl

/-- Claim C7, counterexample: an unsigned-short entry of count 2 whose
inline slot holds the little-endian shorts 7 and 9.  The claim requires
the comma-joined value "7,9"; extractor.go's `readShort` decodes only the
first element and formats "7". -/
theorem C7_counterexample_extractor_readShort_first_only :
    Extractor.tiffData.readShort ⟨ByteOrder.le, []⟩ 2 589831 = PRes.ok (some "7") ∧
    "7" ≠ "7,9" := by decide

/-- Claim C7 (amended): parser.go formats exactly as the claim states —
count 1 yields the decimal string of the single short/long, larger
counts yield the comma-joined decimal strings of all elements in on-disk
order — whereas extractor.go's `readShort`/`readLong` always format only
the first element's decimal string, whatever the count. -/
theorem C7_amended_short_long_formatting :
    (∀ (o : ByteOrder) (vs : List Nat),
      Parser.formatShorts (encShorts o vs) o =
        joinComma (vs.map fun v => Nat.repr (v % 65536))) ∧
    (∀ (o : ByteOrder) (vs : List Nat),
      Parser.formatLongs (encLongs o vs) o =
        joinComma (vs.map fun v => Nat.repr (v % 4294967296))) ∧
    (∀ (o : ByteOrder) (v : Nat) (rest : List Nat) (ts : Nat),
      Parser.readIFDValue (o.put16 v ++ rest) ts 3 1 0 o = some (Nat.repr (v % 65536))) ∧
    (∀ (o : ByteOrder) (v : Nat) (rest : List Nat) (ts : Nat),
      Parser.readIFDValue (o.put32 v ++ rest) ts 4 1 0 o = some (Nat.repr (v % 4294967296))) ∧
    (∀ (o : ByteOrder) (v1 v2 v3 : Nat),
      Extractor.tiffData.readShort ⟨o, encShorts o [v1, v2, v3]⟩ 3 0 =
        PRes.ok (some (Nat.repr (v1 % 65536)))) ∧
    (∀ (o : ByteOrder) (v1 v2 : Nat),
      Extractor.tiffData.readLong ⟨o, o.put32 v1 ++ o.put32 v2⟩ 2 0 =
        PRes.ok (some (Nat.repr (v1 % 4294967296)))) := by
  refine ⟨formatShorts_enc, formatLongs_enc, ?_, ?_, ?_, ?_⟩
  · intro o v rest ts
    cases o <;>
      simp [Parser.readIFDValue, Parser.typeSize, sliceBytes, ByteOrder.put16,
        ByteOrder.uint16At, ByteOrder.uint16] <;>
      congr 1 <;> omega
  · intro o v rest ts
    cases o <;>
      simp [Parser.readIFDValue, Parser.typeSize, sliceBytes, ByteOrder.put32,
        ByteOrder.uint32At, ByteOrder.uint32] <;>
      congr 1 <;> omega
  · intro o v1 v2 v3
    cases o <;>
      simp [Extractor.tiffData.readShort, Extractor.tiffData.readData, encShorts,
        ByteOrder.put16, GoSlice.sub, GoSlice.u16, ByteOrder.uint16At, ByteOrder.uint16] <;>
      congr 1 <;> omega
  · intro o v1 v2
    cases o <;>
      simp [Extractor.tiffData.readLong, Extractor.tiffData.readData,
        ByteOrder.put32, GoSlice.sub, GoSlice.u32, ByteOrder.uint32At, ByteOrder.uint32] <;>
      congr 1 <;> omega

/-! ### Claim C8 -/

/-- Claim C8, counterexample: a byte-type directory entry (type 1, count
1) whose value byte is 255.  The claim requires the lowercase hex string
"ff"; parser.go's `readIFDValue` formats the byte with `%d` and yields
the decimal string "255". -/
theorem C8_counterexample_parser_byte_decimal :
    Parser.readIFDValue [255] 0 1 1 0 ByteOrder.le = some "255" ∧
    "255" ≠ "ff" := by decide

/-- Claim C8 (amended): extractor.go's `readByte` (used for both the byte
and the undefined field types) formats the first byte of the value data
as a lowercase hexadecimal string — for inline values that first byte is
the first slot byte re-encoded by `put32`, for out-of-line values the
byte the value offset points at.  parser.go instead formats a single
byte-type value as its decimal string and drops undefined-type entries
(type 7) entirely. -/
theorem C8_amended_byte_formatting :
    (∀ (o : ByteOrder) (d : List Nat) (count vo : Nat), 1 ≤ count → count ≤ 4 →
      Extractor.tiffData.readByte ⟨o, d⟩ count vo =
        PRes.ok (some (hexByte (byteAt (o.put32 vo) 0)))) ∧
    (∀ (o : ByteOrder) (b0 b1 b2 b3 b4 : Nat),
      Extractor.tiffData.readByte ⟨o, [b0, b1, b2, b3, b4]⟩ 5 0 =
        PRes.ok (some (hexByte (b0 % 256)))) ∧
    (∀ (o : ByteOrder) (b : Nat) (rest : List Nat) (ts : Nat),
      Parser.readIFDValue (b :: rest) ts 1 1 0 o = some (Nat.repr (b % 256))) ∧
    (∀ (data : List Nat) (ts cnt vo : Nat) (o : ByteOrder),
      Parser.readIFDValue data ts 7 cnt vo o = none) := by
  refine ⟨?_, ?_, ?_, ?_⟩
  · intro o d count vo h1 h2
    have hc0 : ¬ count = 0 := by omega
    have hlt : 0 < count := by omega
    simp [Extractor.tiffData.readByte, Extractor.tiffData.readData, GoSlice.get, hc0, h2, hlt]
  · intro o b0 b1 b2 b3 b4
    simp [Extractor.tiffData.readByte, Extractor.tiffData.readData, GoSlice.get, byteAt]
  · intro o b rest ts
    simp [Parser.readIFDValue, Parser.typeSize, sliceBytes, byteAt]
  · intro data ts cnt vo o
    simp [Parser.readIFDValue, Parser.typeSize]

/-- Witness for the amended C8 at a concrete inline byte entry. -/
theorem C8_witness :
    Extractor.tiffData.readByte ⟨ByteOrder.le, []⟩ 2 258 = PRes.ok (some "2") := by
  rw [C8_amended_byte_formatting.1 ByteOrder.le [] 2 258 (by decide) (by decide)]
  decide

/-! ### Claim C9 -/

/-- Claim C9, counterexample: a merged tag map in which the date/time
original tag (0x9003) holds "A" and the plain date/time tag (0x0132)
holds "B", both non-empty.  The claim requires the output record's
date/time field to be "A"; extractor.go's record assembly reads only tag
0x0132 and produces "B" (which fails the EXIF time layout and passes
through verbatim). -/
theorem C9_counterexample_extractor_datetime_plain_tag :
    (Extractor.buildMetadata [(0x9003, (2, "A")), (0x0132, (2, "B"))]).DateTime = "B" ∧
    "B" ≠ "A" := by decide

/-- Claim C9 (amended): parser.go prefers the date/time original tag —
whenever tag 0x9003 carries a non-empty value the Summary's DateTime is
that value — whereas extractor.go ignores tag 0x9003 entirely: prepending
any 0x9003 binding to the tag map leaves its output record unchanged, so
its date/time field comes from tag 0x0132 alone. -/
theorem C9_amended_datetime_preference :
    (∀ (m : TagMap String) (a : String),
      tmLookup m 0x9003 = some a → a ≠ "" →
        (Parser.summaryOfTags m).DateTime = a) ∧
    (∀ (v : Nat × String) (m : TagMap (Nat × String)),
      Extractor.buildMetadata ((0x9003, v) :: m) = Extractor.buildMetadata m) := by
  constructor
  · intro m a h ha
    simp [Parser.summaryOfTags, lookupD, h, Parser.firstNonEmpty, ha]
  · intro v m
    simp [Extractor.buildMetadata, Extractor.tagString, tmLookup]

/-- Witness for the amended C9 at a concrete tag map with both date
tags. -/
theorem C9_witness :
    (Parser.summaryOfTags [(0x9003, "A"), (0x0132, "B")]).DateTime = "A" :=
  C9_amended_datetime_preference.1 [(0x9003, "A"), (0x0132, "B")] "A" (by decide) (by decide)

/-! ### Claim C5 -/

/-- A JPEG with a well-formed main IFD of two entries: an ASCII Make
entry ("TestMake") and an Exif sub-IFD pointer (tag 0x8769, type LONG,
count 1) whose target offset 60000 lies far outside the 43-byte TIFF
payload. -/
def subIFDOutOfRangeJPEG : List Nat :=
  [0xFF, 0xD8, 0xFF, 0xE1, 0, 51, 0x45, 0x78, 0x69, 0x66, 0, 0,
   0x49, 0x49, 42, 0, 8, 0, 0, 0, 2, 0,
   0x0F, 0x01, 2, 0, 9, 0, 0, 0, 34, 0, 0, 0,
   0x69, 0x87, 4, 0, 1, 0, 0, 0, 0x60, 0xEA, 0, 0,
   84, 101, 115, 116, 77, 97, 107, 101, 0]

/-- The TIFF payload of `subIFDOutOfRangeJPEG` (the bytes after the
`Exif\x00\x00` signature). -/
def subIFDOutOfRangeTiff : List Nat :=
  [0x49, 0x49, 42, 0, 8, 0, 0, 0, 2, 0,
   0x0F, 0x01, 2, 0, 9, 0, 0, 0, 34, 0, 0, 0,
   0x69, 0x87, 4, 0, 1, 0, 0, 0, 0x60, 0xEA, 0, 0,
   84, 101, 115, 116, 77, 97, 107, 101, 0]

/-- Claim C5, counterexample: on `subIFDOutOfRangeJPEG` the Exif sub-IFD
offset 60000 makes the sub-directory's entry count lie past the buffer,
which the claim says aborts the whole decode with a fatal error — and
indeed `parseIFD` at that offset fails — yet extractor.go's `parseExif`
silently drops the sub-IFD error and succeeds with the main IFD's tags
(Make = "TestMake"). -/
theorem C5_counterexample_extractor_ignores_subIFD_error :
    Extractor.parseExif subIFDOutOfRangeJPEG = PRes.ok (.ok { Make := "TestMake" }) ∧
    Extractor.tiffData.parseIFD ⟨ByteOrder.le, subIFDOutOfRangeTiff⟩ 60000 =
      PRes.ok (.error "ifd offset out of range") := by decide

/-- Claim C5 (amended): in both decoders a directory whose 2-byte entry
count or whose table of 12-byte entries extends past the buffer aborts
that directory's parse fatally — parser.go with its `ErrInvalidExif`
error (for the main and sub-IFD alike, since `parseEXIF` propagates
either failure), extractor.go with "ifd offset out of range" for the
count and "ifd entries out of range" for the table — while an individual
entry whose declared byte extent (count × per-type size) would read past
the end of the buffer is only skipped: parser.go's `readIFDValue` yields
no value for it, and once the header checks pass `parseIFD` always
returns a tag map, so the remaining entries still decode.  extractor.go,
however, ignores a failed Exif sub-IFD parse instead of aborting the
decode (the counterexample). -/
theorem C5_amended_skip_vs_fatal :
    (∀ (data : List Nat) (tiffStart offset : Nat) (o : ByteOrder),
      offset + 2 ≤ data.length →
      offset + 2 + (o.uint16At data offset) * 12 ≤ data.length →
        ∃ m e, Parser.parseIFD data tiffStart offset o = .ok (m, e)) ∧
    (∀ (data : List Nat) (ts ft cnt vo : Nat) (o : ByteOrder) (sz : Nat),
      Parser.typeSize ft = some sz → 4 < cnt * sz → vo + 4 ≤ data.length →
      data.length < ts + o.uint32At data vo + cnt * sz →
        Parser.readIFDValue data ts ft cnt vo o = none) ∧
    (∀ (data : List Nat) (ts offset : Nat) (o : ByteOrder),
      data.length < offset + 2 →
        Parser.parseIFD data ts offset o = .error Parser.ErrInvalidExif) ∧
    (∀ (data : List Nat) (ts offset : Nat) (o : ByteOrder),
      offset + 2 ≤ data.length →
      data.length < offset + 2 + (o.uint16At data offset) * 12 →
        Parser.parseIFD data ts offset o = .error Parser.ErrInvalidExif) ∧
    (∀ (t : Extractor.tiffData) (offset : Nat),
      offset % 4294967296 ≠ 0 → t.data.length < offset % 4294967296 + 2 →
        t.parseIFD offset = PRes.ok (.error "ifd offset out of range")) ∧
    (∀ (t : Extractor.tiffData) (offset : Nat),
      offset % 4294967296 ≠ 0 → offset % 4294967296 + 2 ≤ t.data.length →
      offset % 4294967296 + 2 < 4294967296 →
      t.data.length <
        offset % 4294967296 + 2 + (t.order.uint16At t.data (offset % 4294967296)) * 12 →
        t.parseIFD offset = PRes.ok (.error "ifd entries out of range")) := by
  refine ⟨?_, ?_, ?_, ?_, ?_, ?_⟩
  · intro data tiffStart offset o h1 h2
    simp only [Parser.parseIFD]
    rw [if_neg (by omega), if_neg (by omega)]
    exact ⟨_, _, rfl⟩
  · intro data ts ft cnt vo o sz hts h4 hvo hover
    simp only [Parser.readIFDValue, hts]
    rw [if_pos (by omega), if_neg (by omega), if_pos (by omega)]
  · intro data ts offset o h
    simp only [Parser.parseIFD]
    rw [if_pos (by omega)]
  · intro data ts offset o h1 h2
    simp only [Parser.parseIFD]
    rw [if_neg (by omega), if_pos (by omega)]
  · intro t offset h0 h1
    simp only [Extractor.tiffData.parseIFD]
    rw [if_neg h0, if_pos (by omega)]
  · intro t offset h0 h1 hlt h2
    simp only [Extractor.tiffData.parseIFD]
    rw [if_neg h0, if_neg (by omega), Nat.mod_eq_of_lt hlt, if_pos (by omega)]

/-- Witness for the amended C5 at concrete directories. -/
theorem C5_witness :
    (∃ m e, Parser.parseIFD [1, 0, 0, 0, 0, 0, 0, 0, 0, 0, 0, 0, 0, 0] 0 0 ByteOrder.le =
      .ok (m, e)) ∧
    Parser.readIFDValue [0, 0, 0, 0] 0 2 9 0 ByteOrder.le = none ∧
    Parser.parseIFD [] 0 5 ByteOrder.le = .error Parser.ErrInvalidExif ∧
    Parser.parseIFD [2, 0] 0 0 ByteOrder.le = .error Parser.ErrInvalidExif ∧
    Extractor.tiffData.parseIFD ⟨ByteOrder.le, []⟩ 5 =
      PRes.ok (.error "ifd offset out of range") ∧
    Extractor.tiffData.parseIFD ⟨ByteOrder.le, [9, 9, 1, 0]⟩ 2 =
      PRes.ok (.error "ifd entries out of range") :=
  ⟨C5_amended_skip_vs_fatal.1 _ 0 0 ByteOrder.le (by decide) (by decide),
   C5_amended_skip_vs_fatal.2.1 _ 0 2 9 0 ByteOrder.le 1 (by decide) (by decide)
     (by decide) (by decide),
   C5_amended_skip_vs_fatal.2.2.1 [] 0 5 ByteOrder.le (by decide),
   C5_amended_skip_vs_fatal.2.2.2.1 [2, 0] 0 0 ByteOrder.le (by decide) (by decide),
   C5_amended_skip_vs_fatal.2.2.2.2.1 ⟨ByteOrder.le, []⟩ 5 (by decide) (by decide),
   C5_amended_skip_vs_fatal.2.2.2.2.2 ⟨ByteOrder.le, [9, 9, 1, 0]⟩ 2 (by decide) (by decide)
     (by decide) (by decide)⟩
